import Mathlib

/-!
Verification of the biscuit matching engine against its specification.

The development shallowly embeds the Rust code of `src/matcher.rs`,
`src/message.rs` and `src/lib.rs`:

* Rust `HashMap`s become association lists with overwrite-on-insert
  semantics (`lookupKey` / `insertKey`), which agree with `HashMap`
  observationally for `get`, `insert` and `contains_key`.
* The `Cache` struct and its operations are translated field by field.
* The JavaScript engine is external; a `Comparer`'s script behaviour is
  abstracted as a function from the call arguments and the shared cache
  to an error-or-unit result together with the cache it leaves behind
  (scripts mutate the cache through the host `identify` binding).
* `Matcher::compare` is instrumented with a dispatch mask (one boolean
  per roster entry recording whether that comparer's `compare` entry
  point was invoked) and the list of warnings it logs, so that dispatch
  and error-isolation claims are observable.
-/

/-- Association-list lookup, modelling `HashMap::get` / `contains_key`. -/
def lookupKey {α β : Type} [DecidableEq α] (k : α) : List (α × β) → Option β
  | [] => none
  | (k', v) :: rest => if k = k' then some v else lookupKey k rest

/-- Association-list insert with overwrite, modelling `HashMap::insert`. -/
def insertKey {α β : Type} [DecidableEq α] (k : α) (v : β) : List (α × β) → List (α × β)
  | [] => [(k, v)]
  | (k', v') :: rest => if k = k' then (k, v) :: rest else (k', v') :: insertKey k v rest

/-- Field data carried by a script's `identify` call (`MessageField` in
`src/matcher.rs`). -/
structure MessageField where
  field_name : String
  field_type : String
  field_id : Nat
deriving DecidableEq

/-- The deobfuscated packet cache (`Cache` in `src/matcher.rs`). -/
structure Cache where
  known_names : List String
  known_ids : List Nat
  id_map : List (Nat × String)
  name_map : List (String × Nat)
  messages : List (String × List MessageField)
deriving DecidableEq

/-- `Cache::default()`: all collections empty. -/
def Cache.default : Cache := ⟨[], [], [], [], []⟩

/-- `Cache::id_known`: whether `id_map` contains the id. -/
def Cache.id_known (c : Cache) (id : Nat) : Bool :=
  (lookupKey id c.id_map).isSome

/-- `Cache::name_known`: whether `known_names` contains the name. -/
def Cache.name_known (c : Cache) (name : String) : Bool :=
  c.known_names.contains name

/-- `messages.entry(name).or_default().push(field)`: append `field` at the
end of the list held under `name`, creating the entry if missing. -/
def appendField (name : String) (f : MessageField) :
    List (String × List MessageField) → List (String × List MessageField)
  | [] => [(name, [f])]
  | (n, fs) :: rest =>
      if name = n then (n, fs ++ [f]) :: rest else (n, fs) :: appendField name f rest

/-- `Cache::update`: if the id is unknown, append name/id to the parallel
sequences and insert both map directions; always append the field to
`messages[name]`. -/
def Cache.update (c : Cache) (message_name : String) (packet_id : Nat)
    (field : MessageField) : Cache :=
  let c' :=
    if (lookupKey packet_id c.id_map).isSome then c
    else
      { c with
        known_names := c.known_names ++ [message_name],
        known_ids := c.known_ids ++ [packet_id],
        id_map := insertKey packet_id message_name c.id_map,
        name_map := insertKey message_name packet_id c.name_map }
  { c' with messages := appendField message_name field c'.messages }

/-- One recorded `update` call, used to describe cache histories. -/
structure CacheOp where
  name : String
  id : Nat
  field : MessageField
deriving DecidableEq

/-- Apply a sequence of `update` calls in order. -/
def applyOps (c : Cache) (ops : List CacheOp) : Cache :=
  ops.foldl (fun acc op => acc.update op.name op.id op.field) c

/-- A cache state that can arise in the program: reachable from
`Cache::default()` by `update` calls. -/
def Cache.Reachable (c : Cache) : Prop :=
  ∃ ops, applyOps Cache.default ops = c

/-- One (or multiple) values in a protobuf-encoded message
(`Value` in `src/message.rs`).  Float and double payloads are carried as
their bit patterns; the accessors under verification never compute with
them. -/
inductive Value where
  | varInt : Int → Value
  | float : Nat → Value
  | double : Nat → Value
  | str : String → Value
  | bytes : List Nat → Value
  | message : List (Int × Value) → Value

/-- The kind tags of `Value`, one per constructor of the Rust enum. -/
inductive ValueKind where
  | varInt | float | double | str | bytes | message
deriving DecidableEq

/-- The constructor tag of a `Value`. -/
def Value.kind : Value → ValueKind
  | .varInt _ => .varInt
  | .float _ => .float
  | .double _ => .double
  | .str _ => .str
  | .bytes _ => .bytes
  | .message _ => .message

/-- A decoded protobuf message as produced by the external decoder:
a field-id keyed collection of values. -/
def ProtoMessage : Type := List (Int × Value)

/-- The script-visible converted message (`SerializedMessage` in
`src/message.rs`): a map from field id to value. -/
structure SerializedMessage where
  inner : List (Int × Value)

/-- `SerializedMessage::get`: fetch the value at a field id, `none` when
the field does not exist. -/
def SerializedMessage.get (m : SerializedMessage) (key : Int) : Option Value :=
  lookupKey key m.inner

/-- The kind-filtered accessor generated by the `js_method!` macro in
`src/message.rs` (`js_get_varint`, `js_get_float`, ...), parameterised by
the kind: look the field up, return it when its value has the requested
kind, and the absent-value marker (`none`, standing for JavaScript
`undefined`) when the field is missing or of a different kind. -/
def SerializedMessage.jsGetOfKind (m : SerializedMessage) (field_id : Int)
    (k : ValueKind) : Option Value :=
  match m.get field_id with
  | some v => if v.kind = k then some v else none
  | none => none

/-- A loaded comparer (`Comparer` in `src/matcher.rs`): its declared
`PACKET_NAME` and the behaviour of its script's `compare` entry point,
abstracted as a function of the call arguments and the shared cache. -/
structure Comparer where
  name : String
  run : Nat → SerializedMessage → SerializedMessage → Cache → Except String Unit × Cache

/-- The identity filter of `Matcher::compare`: a comparer is dispatched
unless the cache already binds its declared name to a different id. -/
def eligible (cache : Cache) (nm : String) (id : Nat) : Bool :=
  match lookupKey nm cache.name_map with
  | some known_id => decide (known_id = id)
  | none => true

/-- The dispatch loop of `Matcher::compare`, instrumented with a mask of
dispatch decisions (one boolean per roster entry, `true` when the
comparer's `compare` entry point was invoked) and the warnings logged for
caught per-comparer errors. -/
def compareLoop (id : Nat) (header data : SerializedMessage) :
    List Comparer → Cache → Cache × List Bool × List String
  | [], cache => (cache, [], [])
  | c :: rest, cache =>
    if eligible cache c.name id = true then
      let out := c.run id header data cache
      let next := compareLoop id header data rest out.2
      (next.1, true :: next.2.1,
        (match out.1 with
         | Except.error e => [e]
         | Except.ok _ => []) ++ next.2.2)
    else
      let next := compareLoop id header data rest cache
      (next.1, false :: next.2.1, next.2.2)

/-- The cache state the dispatch loop observes when it reaches roster
position `i`: the initial cache transformed by the runs of the eligible
comparers before position `i`. -/
def cacheBefore (id : Nat) (header data : SerializedMessage) :
    List Comparer → Cache → Nat → Cache
  | _, cache, 0 => cache
  | [], cache, _ + 1 => cache
  | c :: rest, cache, i + 1 =>
      cacheBefore id header data rest
        (if eligible cache c.name id = true then (c.run id header data cache).2 else cache) i

/-- Configuration (`Config` in `src/config.rs`). -/
structure Config where
  script_path : String
  environment_file : String
deriving DecidableEq

/-- `Config::default()`. -/
def Config.default : Config := ⟨"scripts", ".env"⟩

/-- The matcher (`Matcher` in `src/matcher.rs`): configuration, the shared
cache, and the ordered comparer roster. -/
structure Matcher where
  config : Config
  cache : Cache
  comparers : List Comparer

/-- `Matcher::new()`. -/
def Matcher.new : Matcher := ⟨Config.default, Cache.default, []⟩

/-- The observable outcome of one `Matcher::compare` call: the returned
result, the matcher state left behind, the dispatch mask, and the warnings
logged for caught comparer errors. -/
structure CompareOut where
  result : Except String Unit
  matcher : Matcher
  invoked : List Bool
  warnings : List String

/-- `Matcher::compare`: decode the data blob, then the header blob; either
failure aborts with an error before the loop; otherwise run the dispatch
loop over the roster and return success.  The external `protoshark::decode`
is a parameter. -/
def Matcher.compare (m : Matcher) (decode : List Nat → Except String SerializedMessage)
    (id : Nat) (header data : List Nat) : CompareOut :=
  match decode data with
  | Except.error _ => ⟨Except.error "failed to decode packet", m, [], []⟩
  | Except.ok d =>
    match decode header with
    | Except.error _ => ⟨Except.error "failed to decode header", m, [], []⟩
    | Except.ok h =>
      let out := compareLoop id h d m.comparers m.cache
      ⟨Except.ok (), { m with cache := out.1 }, out.2.1, out.2.2⟩

/-- A script file as the loader sees it, with the external JavaScript
engine abstracted: whether top-level evaluation fails, whether a callable
`compare` is defined, the `PACKET_NAME` string constant when defined as a
string, the outcome of the optional `init` entry point, and the behaviour
of its `compare` entry point. -/
structure Script where
  evalFailure : Option String
  hasCompare : Bool
  packetName : Option String
  initOutcome : Option (Except String Unit)
  run : Nat → SerializedMessage → SerializedMessage → Cache → Except String Unit × Cache

/-- `Comparer::from`: evaluation failure is an error; a script without a
callable `compare` yields `ok none` (no comparer produced, not an error);
with `compare` but no `PACKET_NAME` string it is an error; a failing
`init` is an error; otherwise the comparer is produced. -/
def Comparer.fromScript (s : Script) : Except String (Option Comparer) :=
  match s.evalFailure with
  | some _ => Except.error "failed to evaluate script"
  | none =>
    if ¬ s.hasCompare then Except.ok none
    else
      match s.packetName with
      | none => Except.error "failed to get packet name"
      | some nm =>
        match s.initOutcome with
        | some (Except.error _) => Except.error "failed to run function"
        | _ => Except.ok (some ⟨nm, s.run⟩)

/-- The per-file loading loop of `Matcher::initialize`: `ok some` outcomes
are appended to the roster in order, errors are logged as warnings and the
file skipped, `ok none` outcomes are skipped silently. -/
def loadScripts : List Script → List Comparer × List String
  | [] => ([], [])
  | s :: rest =>
    let next := loadScripts rest
    match Comparer.fromScript s with
    | Except.ok (some c) => (c :: next.1, next.2)
    | Except.ok none => next
    | Except.error e => (next.1, e :: next.2)

/-- `Matcher::initialize` modulo directory enumeration: push the comparers
constructed from the given scripts onto the existing roster, returning the
warnings logged. -/
def Matcher.loadFrom (m : Matcher) (scripts : List Script) : Matcher × List String :=
  let out := loadScripts scripts
  ({ m with comparers := m.comparers ++ out.1 }, out.2)

/-- The public `initialize` of `src/lib.rs` acting on the process-wide
matcher: a missing script directory is a hard error; otherwise the
configuration is replaced and the matcher loads the directory's scripts on
top of its existing state.  Directory existence and the directory's script
files are parameters standing for the file system. -/
def libSetup (pathOk : Bool) (m : Matcher) (config : Config)
    (scripts : List Script) : Except String (Matcher × List String) :=
  if pathOk = false then Except.error "script folder does not exist"
  else Except.ok (Matcher.loadFrom { m with config := config } scripts)

/-- The public `input` of `src/lib.rs`: off the main thread it errors
immediately; otherwise it forwards to `Matcher::compare`.  The main-thread
probe (`is_main_thread()`, `none` when undetectable, treated as main) and
the decoder are parameters. -/
def input (isMain : Option Bool) (m : Matcher)
    (decode : List Nat → Except String SerializedMessage)
    (id : Nat) (header data : List Nat) : CompareOut :=
  let is_main := isMain.getD true
  if is_main = false then
    ⟨Except.error "input can only be called on the main thread", m, [], []⟩
  else m.compare decode id header data

theorem lookupKey_insertKey_self {α β : Type} [DecidableEq α] (k : α) (v : β)
    (l : List (α × β)) : lookupKey k (insertKey k v l) = some v := by
  induction l with
  | nil => simp [insertKey, lookupKey]
  | cons p rest ih =>
    cases p with
    | mk k' v' =>
      by_cases h : k = k'
      · simp [insertKey, lookupKey, h]
      · simp [insertKey, lookupKey, h, ih]

theorem lookupKey_insertKey_ne {α β : Type} [DecidableEq α] {j k : α} (v : β)
    (l : List (α × β)) (h : j ≠ k) :
    lookupKey j (insertKey k v l) = lookupKey j l := by
  induction l with
  | nil => simp [insertKey, lookupKey, h]
  | cons p rest ih =>
    cases p with
    | mk k' v' =>
      by_cases hk : k = k'
      · subst hk; simp [insertKey, lookupKey, h, ih]
      · by_cases hj : j = k'
        · simp [insertKey, lookupKey, hk, hj]
        · simp [insertKey, lookupKey, hk, hj, ih]

theorem lookupKey_appendField_self (name : String) (f : MessageField)
    (l : List (String × List MessageField)) :
    lookupKey name (appendField name f l) =
      some ((lookupKey name l).getD [] ++ [f]) := by
  induction l with
  | nil => simp [appendField, lookupKey]
  | cons p rest ih =>
    cases p with
    | mk n fs =>
      by_cases h : name = n
      · simp [appendField, lookupKey, h]
      · simp [appendField, lookupKey, h, ih]

theorem Cache.update_messages (c : Cache) (name : String) (id : Nat)
    (field : MessageField) :
    (c.update name id field).messages = appendField name field c.messages := by
  unfold Cache.update
  by_cases h : (lookupKey id c.id_map).isSome <;> simp [h]

theorem Cache.update_known_id (c : Cache) (name : String) (id : Nat)
    (field : MessageField) (h : (lookupKey id c.id_map).isSome = true) :
    (c.update name id field).id_map = c.id_map ∧
    (c.update name id field).name_map = c.name_map ∧
    (c.update name id field).known_names = c.known_names ∧
    (c.update name id field).known_ids = c.known_ids := by
  unfold Cache.update
  simp [h]

theorem Cache.update_fresh_id (c : Cache) (name : String) (id : Nat)
    (field : MessageField) (h : lookupKey id c.id_map = none) :
    (c.update name id field).id_map = insertKey id name c.id_map ∧
    (c.update name id field).name_map = insertKey name id c.name_map ∧
    (c.update name id field).known_names = c.known_names ++ [name] ∧
    (c.update name id field).known_ids = c.known_ids ++ [id] := by
  unfold Cache.update
  simp [h]

theorem Cache.id_known_update_ne (c : Cache) (name : String) (id i : Nat)
    (field : MessageField) (h : id ≠ i) :
    (c.update name id field).id_known i = c.id_known i := by
  unfold Cache.id_known
  by_cases hk : (lookupKey id c.id_map).isSome
  · rw [(c.update_known_id name id field hk).1]
  · rw [(c.update_fresh_id name id field
      (Option.not_isSome_iff_eq_none.mp hk)).1]
    rw [lookupKey_insertKey_ne name c.id_map (Ne.symm h)]

theorem Cache.id_known_update_self (c : Cache) (name : String) (i : Nat)
    (field : MessageField) : (c.update name i field).id_known i = true := by
  unfold Cache.id_known
  by_cases hk : (lookupKey i c.id_map).isSome
  · rw [(c.update_known_id name i field hk).1]; exact hk
  · rw [(c.update_fresh_id name i field
      (Option.not_isSome_iff_eq_none.mp hk)).1]
    rw [lookupKey_insertKey_self]
    rfl

theorem Cache.id_known_update_mono (c : Cache) (name : String) (id i : Nat)
    (field : MessageField) (h : c.id_known i = true) :
    (c.update name id field).id_known i = true := by
  by_cases hi : id = i
  · subst hi; exact c.id_known_update_self name id field
  · rw [c.id_known_update_ne name id i field hi]; exact h

theorem applyOps_id_known_false (i : Nat) :
    ∀ (ops : List CacheOp) (c : Cache), (∀ op ∈ ops, op.id ≠ i) →
      c.id_known i = false → (applyOps c ops).id_known i = false := by
  intro ops
  induction ops with
  | nil => intro c _ h; exact h
  | cons op rest ih =>
    intro c hops h
    have hop : op.id ≠ i := hops op (List.mem_cons_self op rest)
    have hrest : ∀ o ∈ rest, o.id ≠ i :=
      fun o ho => hops o (List.mem_cons_of_mem op ho)
    show (applyOps (c.update op.name op.id op.field) rest).id_known i = false
    exact ih _ hrest (by rw [c.id_known_update_ne op.name op.id i op.field hop]; exact h)

theorem applyOps_id_known_true (i : Nat) :
    ∀ (ops : List CacheOp) (c : Cache), c.id_known i = true →
      (applyOps c ops).id_known i = true := by
  intro ops
  induction ops with
  | nil => intro c h; exact h
  | cons op rest ih =>
    intro c h
    show (applyOps (c.update op.name op.id op.field) rest).id_known i = true
    exact ih _ (c.id_known_update_mono op.name op.id i op.field h)

/-- C2: if the id is already a key of `id_map`, `update` leaves `id_map`,
`name_map`, `known_names` and `known_ids` unchanged (first-write-wins, no
duplicate in `known_ids`); in every case the field is appended at the end
of `messages[name]` under the literal name argument, so
`update("Foo",5,f1)` then `update("Foo",5,f2)` yields `id_map[5] = "Foo"`
and `messages["Foo"] = [f1, f2]` in call order. -/
theorem cache_update_first_write_wins (c : Cache) (name : String) (id : Nat)
    (field : MessageField) :
    ((lookupKey id c.id_map).isSome = true →
      (c.update name id field).id_map = c.id_map ∧
      (c.update name id field).name_map = c.name_map ∧
      (c.update name id field).known_names = c.known_names ∧
      (c.update name id field).known_ids = c.known_ids) ∧
    lookupKey name (c.update name id field).messages =
      some ((lookupKey name c.messages).getD [] ++ [field]) ∧
    (∀ f1 f2 : MessageField,
      lookupKey 5 ((Cache.default.update "Foo" 5 f1).update "Foo" 5 f2).id_map =
        some "Foo" ∧
      lookupKey "Foo"
          ((Cache.default.update "Foo" 5 f1).update "Foo" 5 f2).messages =
        some [f1, f2]) := by
  refine ⟨fun h => c.update_known_id name id field h, ?_, ?_⟩
  · rw [c.update_messages name id field, lookupKey_appendField_self]
  · intro f1 f2
    constructor
    · simp [Cache.update, Cache.default, lookupKey, insertKey, appendField]
    · simp [Cache.update, Cache.default, lookupKey, insertKey, appendField]

/-- Witness for C2 at a concrete cache that already knows id 1. -/
theorem cache_update_first_write_wins_witness :
    ((lookupKey 1 (Cache.default.update "A" 1 ⟨"x", "int", 1⟩).id_map).isSome = true) ∧
    ((Cache.default.update "A" 1 ⟨"x", "int", 1⟩).update "B" 1 ⟨"y", "int", 2⟩).id_map =
      (Cache.default.update "A" 1 ⟨"x", "int", 1⟩).id_map ∧
    lookupKey "B"
        (((Cache.default.update "A" 1 ⟨"x", "int", 1⟩).update "B" 1 ⟨"y", "int", 2⟩)).messages =
      some ((lookupKey "B" (Cache.default.update "A" 1 ⟨"x", "int", 1⟩).messages).getD []
        ++ [⟨"y", "int", 2⟩]) := by
  refine ⟨by decide, ?_, ?_⟩
  · exact ((cache_update_first_write_wins
      (Cache.default.update "A" 1 ⟨"x", "int", 1⟩) "B" 1 ⟨"y", "int", 2⟩).1 (by decide)).1
  · exact (cache_update_first_write_wins
      (Cache.default.update "A" 1 ⟨"x", "int", 1⟩) "B" 1 ⟨"y", "int", 2⟩).2.1

/-- C3: `id_known(i)` is false on a cache built by updates none of which
carry id `i`; it is true immediately after any `update` carrying `i`; and
it stays true under every further sequence of updates (monotone, no
removal). -/
theorem cache_id_known_monotone (i : Nat) :
    (∀ ops : List CacheOp, (∀ op ∈ ops, op.id ≠ i) →
      (applyOps Cache.default ops).id_known i = false) ∧
    (∀ (c : Cache) (name : String) (field : MessageField),
      (c.update name i field).id_known i = true) ∧
    (∀ (c : Cache) (ops : List CacheOp), c.id_known i = true →
      (applyOps c ops).id_known i = true) := by
  refine ⟨?_, ?_, ?_⟩
  · intro ops hops
    exact applyOps_id_known_false i ops Cache.default hops (by rfl)
  · intro c name field
    exact c.id_known_update_self name i field
  · intro c ops h
    exact applyOps_id_known_true i ops c h

/-- Witness for C3 at id 7: unknown after unrelated updates, known right
after an update carrying 7, still known after one more update. -/
theorem cache_id_known_monotone_witness :
    (applyOps Cache.default [⟨"A", 1, ⟨"x", "int", 1⟩⟩]).id_known 7 = false ∧
    ((applyOps Cache.default [⟨"A", 1, ⟨"x", "int", 1⟩⟩]).update "B" 7 ⟨"y", "int", 2⟩).id_known 7 = true ∧
    (applyOps ((applyOps Cache.default [⟨"A", 1, ⟨"x", "int", 1⟩⟩]).update "B" 7 ⟨"y", "int", 2⟩)
      [⟨"C", 9, ⟨"z", "int", 3⟩⟩]).id_known 7 = true := by
  refine ⟨?_, ?_, ?_⟩
  · exact (cache_id_known_monotone 7).1 [⟨"A", 1, ⟨"x", "int", 1⟩⟩] (by decide)
  · exact (cache_id_known_monotone 7).2.1 _ "B" ⟨"y", "int", 2⟩
  · exact (cache_id_known_monotone 7).2.2 _ [⟨"C", 9, ⟨"z", "int", 3⟩⟩]
      ((cache_id_known_monotone 7).2.1 _ "B" ⟨"y", "int", 2⟩)

theorem compareLoop_mask_length (id : Nat) (header data : SerializedMessage) :
    ∀ (cs : List Comparer) (cache : Cache),
      (compareLoop id header data cs cache).2.1.length = cs.length := by
  intro cs
  induction cs with
  | nil => intro cache; rfl
  | cons c rest ih =>
    intro cache
    by_cases he : eligible cache c.name id = true <;>
      simp [compareLoop, he, ih]

theorem compareLoop_mask_eligible (id : Nat) (header data : SerializedMessage) :
    ∀ (cs : List Comparer) (cache : Cache) (i : Nat) (hi : i < cs.length),
      (compareLoop id header data cs cache).2.1.getD i false =
        eligible (cacheBefore id header data cs cache i)
          (cs.get ⟨i, hi⟩).name id := by
  intro cs
  induction cs with
  | nil => intro cache i hi; exact absurd hi (Nat.not_lt_zero i)
  | cons c rest ih =>
    intro cache i hi
    cases i with
    | zero =>
      by_cases he : eligible cache c.name id = true <;>
        simp [compareLoop, cacheBefore, he]
    | succ j =>
      have hj : j < rest.length := Nat.lt_of_succ_lt_succ hi
      by_cases he : eligible cache c.name id = true
      · simpa [compareLoop, cacheBefore, he] using
          ih ((c.run id header data cache).2) j hj
      · simpa [compareLoop, cacheBefore, he] using ih cache j hj

/-- C1: for each roster position of a `Matcher::compare` call, with the
cache state the loop observes at that position: if `name_map` binds the
comparer's declared name to a different id than the incoming one, that
comparer's `compare` entry point is not invoked; if it binds the name to
the incoming id, or has no entry for the name, the comparer is
dispatched. -/
theorem matcher_compare_identity_filter
    (m : Matcher) (decode : List Nat → Except String SerializedMessage)
    (id : Nat) (header data : List Nat) (hmsg dmsg : SerializedMessage)
    (hd : decode data = Except.ok dmsg) (hh : decode header = Except.ok hmsg)
    (i : Nat) (hi : i < m.comparers.length) :
    (∀ k, lookupKey (m.comparers.get ⟨i, hi⟩).name
        (cacheBefore id hmsg dmsg m.comparers m.cache i).name_map = some k →
      k ≠ id →
      (m.compare decode id header data).invoked.getD i false = false) ∧
    (lookupKey (m.comparers.get ⟨i, hi⟩).name
        (cacheBefore id hmsg dmsg m.comparers m.cache i).name_map = some id →
      (m.compare decode id header data).invoked.getD i false = true) ∧
    (lookupKey (m.comparers.get ⟨i, hi⟩).name
        (cacheBefore id hmsg dmsg m.comparers m.cache i).name_map = none →
      (m.compare decode id header data).invoked.getD i false = true) := by
  have hout : (m.compare decode id header data).invoked =
      (compareLoop id hmsg dmsg m.comparers m.cache).2.1 := by
    simp [Matcher.compare, hd, hh]
  have hmask := compareLoop_mask_eligible id hmsg dmsg m.comparers m.cache i hi
  refine ⟨?_, ?_, ?_⟩
  · intro k hk hne
    rw [hout, hmask]
    simp only [List.get_eq_getElem] at hk
    simp [eligible, hk, hne]
  · intro hk
    rw [hout, hmask]
    simp only [List.get_eq_getElem] at hk
    simp [eligible, hk]
  · intro hk
    rw [hout, hmask]
    simp only [List.get_eq_getElem] at hk
    simp [eligible, hk]

/-- A comparer declared as `"Login"` whose script succeeds and leaves the
cache unchanged. -/
def cmpLogin : Comparer := ⟨"Login", fun _ _ _ cache => (Except.ok (), cache)⟩

/-- A matcher whose cache already binds `"Login"` to id 42 and whose
roster holds `cmpLogin`. -/
def mLogin : Matcher :=
  ⟨Config.default, ⟨["Login"], [42], [(42, "Login")], [("Login", 42)], []⟩, [cmpLogin]⟩

/-- A decoder that always succeeds with an empty message. -/
def decOk : List Nat → Except String SerializedMessage :=
  fun _ => Except.ok ⟨[]⟩

/-- Witness for C1: with `"Login"` bound to 42, feeding id 99 does not
invoke the comparer; feeding id 42 does. -/
theorem matcher_compare_identity_filter_witness :
    (mLogin.compare decOk 99 [] []).invoked.getD 0 false = false ∧
    (mLogin.compare decOk 42 [] []).invoked.getD 0 false = true := by
  constructor
  · exact (matcher_compare_identity_filter mLogin decOk 99 [] [] ⟨[]⟩ ⟨[]⟩
      rfl rfl 0 (by decide)).1 42 rfl (by decide)
  · exact (matcher_compare_identity_filter mLogin decOk 42 [] [] ⟨[]⟩ ⟨[]⟩
      rfl rfl 0 (by decide)).2.1 rfl

/-- C4: if decoding the data blob or the header blob fails, the call
returns an error, no comparer is dispatched, nothing is logged by the
loop, and the matcher (in particular its cache) is left unchanged. -/
theorem matcher_compare_decode_failure
    (m : Matcher) (decode : List Nat → Except String SerializedMessage)
    (id : Nat) (header data : List Nat)
    (h : (∃ e, decode data = Except.error e) ∨ (∃ e, decode header = Except.error e)) :
    (∃ msg, (m.compare decode id header data).result = Except.error msg) ∧
    (m.compare decode id header data).matcher = m ∧
    (m.compare decode id header data).invoked = [] ∧
    (m.compare decode id header data).warnings = [] := by
  rcases h with ⟨e, he⟩ | ⟨e, he⟩
  · refine ⟨⟨"failed to decode packet", ?_⟩, ?_, ?_, ?_⟩ <;>
      simp [Matcher.compare, he]
  · cases hd : decode data with
    | error e2 =>
      refine ⟨⟨"failed to decode packet", ?_⟩, ?_, ?_, ?_⟩ <;>
        simp [Matcher.compare, hd]
    | ok d =>
      refine ⟨⟨"failed to decode header", ?_⟩, ?_, ?_, ?_⟩ <;>
        simp [Matcher.compare, hd, he]

/-- A decoder that always fails. -/
def decBad : List Nat → Except String SerializedMessage :=
  fun _ => Except.error "bad wire data"

/-- Witness for C4 at a failing decoder: error result, matcher untouched,
no comparer invoked. -/
theorem matcher_compare_decode_failure_witness :
    (∃ msg, (mLogin.compare decBad 42 [] []).result = Except.error msg) ∧
    (mLogin.compare decBad 42 [] []).matcher = mLogin ∧
    (mLogin.compare decBad 42 [] []).invoked = [] ∧
    (mLogin.compare decBad 42 [] []).warnings = [] :=
  matcher_compare_decode_failure mLogin decBad 42 [] []
    (Or.inl ⟨"bad wire data", rfl⟩)

/-- Two comparers have the same effect when they declare the same name and
their runs transform the cache identically; their error results may
differ. -/
def sameEffect (c₁ c₂ : Comparer) : Prop :=
  c₁.name = c₂.name ∧
  ∀ id header data cache,
    (c₁.run id header data cache).2 = (c₂.run id header data cache).2

theorem compareLoop_effect_only (id : Nat) (header data : SerializedMessage) :
    ∀ {cs₁ cs₂ : List Comparer}, List.Forall₂ sameEffect cs₁ cs₂ →
      ∀ cache : Cache,
        (compareLoop id header data cs₁ cache).1 =
          (compareLoop id header data cs₂ cache).1 ∧
        (compareLoop id header data cs₁ cache).2.1 =
          (compareLoop id header data cs₂ cache).2.1 := by
  intro cs₁ cs₂ hs
  induction hs with
  | nil => intro cache; exact ⟨rfl, rfl⟩
  | cons h hs ih =>
    intro cache
    rename_i c₁ c₂ rest₁ rest₂
    have hname : c₁.name = c₂.name := h.1
    have hrun : (c₁.run id header data cache).2 = (c₂.run id header data cache).2 :=
      h.2 id header data cache
    by_cases he : eligible cache c₁.name id = true
    · have he₂ : eligible cache c₂.name id = true := by rw [← hname]; exact he
      have := ih ((c₁.run id header data cache).2)
      rw [hrun] at this
      simp [compareLoop, he, he₂, hrun]
      exact ⟨this.1, this.2⟩
    · have he₂ : ¬ eligible cache c₂.name id = true := by rw [← hname]; exact he
      have := ih cache
      simp [compareLoop, he, he₂]
      exact ⟨this.1, this.2⟩

theorem compareLoop_error_logged (id : Nat) (header data : SerializedMessage) :
    ∀ (cs : List Comparer) (cache : Cache) (i : Nat) (hi : i < cs.length) (e : String),
      eligible (cacheBefore id header data cs cache i) (cs.get ⟨i, hi⟩).name id = true →
      ((cs.get ⟨i, hi⟩).run id header data
          (cacheBefore id header data cs cache i)).1 = Except.error e →
      e ∈ (compareLoop id header data cs cache).2.2 := by
  intro cs
  induction cs with
  | nil => intro cache i hi; exact absurd hi (Nat.not_lt_zero i)
  | cons c rest ih =>
    intro cache i hi e helig herr
    cases i with
    | zero =>
      simp only [List.get] at helig herr
      have h0 : cacheBefore id header data (c :: rest) cache 0 = cache := rfl
      rw [h0] at helig herr
      simp [compareLoop, helig, herr]
    | succ j =>
      have hj : j < rest.length := Nat.lt_of_succ_lt_succ hi
      by_cases he : eligible cache c.name id = true
      · have hrec := ih ((c.run id header data cache).2) j hj e
          (by simpa [cacheBefore, he] using helig)
          (by simpa [cacheBefore, he] using herr)
        simp [compareLoop, he]
        right
        exact hrec
      · have hrec := ih cache j hj e
          (by simpa [cacheBefore, he] using helig)
          (by simpa [cacheBefore, he] using herr)
        simp [compareLoop, he]
        exact hrec

/-- C5: with both blobs decoding, `Matcher::compare` returns success
regardless of comparer errors; a dispatched comparer's error is logged in
the warnings; and the dispatch decisions and cache evolution depend only
on the comparers' names and cache effects, never on their error results —
so an erroring comparer neither short-circuits the loop nor changes which
later eligible comparers are dispatched. -/
theorem matcher_compare_error_isolation
    (m₁ m₂ : Matcher) (decode : List Nat → Except String SerializedMessage)
    (id : Nat) (header data : List Nat) (hmsg dmsg : SerializedMessage)
    (hd : decode data = Except.ok dmsg) (hh : decode header = Except.ok hmsg)
    (hc : m₁.cache = m₂.cache)
    (hs : List.Forall₂ sameEffect m₁.comparers m₂.comparers) :
    (m₁.compare decode id header data).result = Except.ok () ∧
    (m₁.compare decode id header data).invoked =
      (m₂.compare decode id header data).invoked ∧
    (m₁.compare decode id header data).matcher.cache =
      (m₂.compare decode id header data).matcher.cache ∧
    (∀ (i : Nat) (hi : i < m₁.comparers.length) (e : String),
      eligible (cacheBefore id hmsg dmsg m₁.comparers m₁.cache i)
        (m₁.comparers.get ⟨i, hi⟩).name id = true →
      ((m₁.comparers.get ⟨i, hi⟩).run id hmsg dmsg
          (cacheBefore id hmsg dmsg m₁.comparers m₁.cache i)).1 = Except.error e →
      e ∈ (m₁.compare decode id header data).warnings) := by
  have heff := compareLoop_effect_only id hmsg dmsg hs m₁.cache
  refine ⟨?_, ?_, ?_, ?_⟩
  · simp [Matcher.compare, hd, hh]
  · simp only [Matcher.compare, hd, hh]
    rw [hc] at heff
    rw [← hc] at heff
    exact heff.2.trans (by rw [hc])
  · simp only [Matcher.compare, hd, hh]
    exact heff.1.trans (by rw [hc])
  · intro i hi e helig herr
    have hlog := compareLoop_error_logged id hmsg dmsg m₁.comparers m₁.cache i hi e
      helig herr
    simpa [Matcher.compare, hd, hh] using hlog

/-- A comparer whose script always errors, leaving the cache unchanged. -/
def cmpErr : Comparer := ⟨"E", fun _ _ _ cache => (Except.error "boom", cache)⟩

/-- The same comparer with the error replaced by success. -/
def cmpErrOk : Comparer := ⟨"E", fun _ _ _ cache => (Except.ok (), cache)⟩

/-- A comparer placed after the erroring one in the roster. -/
def cmpAfter : Comparer := ⟨"F", fun _ _ _ cache => (Except.ok (), cache)⟩

/-- A matcher whose first comparer errors. -/
def mErr : Matcher := ⟨Config.default, Cache.default, [cmpErr, cmpAfter]⟩

/-- The same matcher with the erroring comparer made successful. -/
def mNoErr : Matcher := ⟨Config.default, Cache.default, [cmpErrOk, cmpAfter]⟩

/-- Witness for C5: the call still succeeds, the error is logged, and the
dispatch decisions agree with the error-free variant. -/
theorem matcher_compare_error_isolation_witness :
    (mErr.compare decOk 1 [] []).result = Except.ok () ∧
    (mErr.compare decOk 1 [] []).invoked = (mNoErr.compare decOk 1 [] []).invoked ∧
    "boom" ∈ (mErr.compare decOk 1 [] []).warnings := by
  have h := matcher_compare_error_isolation mErr mNoErr decOk 1 [] [] ⟨[]⟩ ⟨[]⟩
    rfl rfl rfl
    (List.Forall₂.cons ⟨rfl, fun _ _ _ _ => rfl⟩
      (List.Forall₂.cons ⟨rfl, fun _ _ _ _ => rfl⟩ List.Forall₂.nil))
  exact ⟨h.1, h.2.1, h.2.2.2 0 (by decide) "boom" rfl rfl⟩

/-- C6: a cleanly evaluated script without a `compare` entry point yields
the distinguished "no comparer produced" outcome (`ok none`, not an
error), contributes nothing to the roster and no warning; a script with
`compare` but no `PACKET_NAME` string yields an error outcome that is
logged as a warning and excluded, while the remaining files still load. -/
theorem comparer_load_outcomes :
    (∀ (s : Script) (rest : List Script),
      s.evalFailure = none → s.hasCompare = false →
      Comparer.fromScript s = Except.ok none ∧
      loadScripts (s :: rest) = loadScripts rest) ∧
    (∀ (s : Script) (rest : List Script),
      s.evalFailure = none → s.hasCompare = true → s.packetName = none →
      (∃ e, Comparer.fromScript s = Except.error e) ∧
      (loadScripts (s :: rest)).1 = (loadScripts rest).1 ∧
      (loadScripts (s :: rest)).2 =
        "failed to get packet name" :: (loadScripts rest).2) := by
  constructor
  · intro s rest h1 h2
    have hfrom : Comparer.fromScript s = Except.ok none := by
      simp [Comparer.fromScript, h1, h2]
    exact ⟨hfrom, by simp [loadScripts, hfrom]⟩
  · intro s rest h1 h2 h3
    have hfrom : Comparer.fromScript s = Except.error "failed to get packet name" := by
      simp [Comparer.fromScript, h1, h2, h3]
    exact ⟨⟨"failed to get packet name", hfrom⟩,
      by simp [loadScripts, hfrom], by simp [loadScripts, hfrom]⟩

/-- A cleanly evaluated script that defines no `compare` entry point. -/
def sNoCompare : Script :=
  ⟨none, false, none, none, fun _ _ _ cache => (Except.ok (), cache)⟩

/-- A cleanly evaluated script with `compare` but no `PACKET_NAME`. -/
def sNoName : Script :=
  ⟨none, true, none, none, fun _ _ _ cache => (Except.ok (), cache)⟩

/-- Witness for C6 at the two concrete scripts. -/
theorem comparer_load_outcomes_witness :
    Comparer.fromScript sNoCompare = Except.ok none ∧
    loadScripts [sNoCompare] = loadScripts [] ∧
    (∃ e, Comparer.fromScript sNoName = Except.error e) ∧
    (loadScripts [sNoName]).1 = [] ∧
    (loadScripts [sNoName]).2 = ["failed to get packet name"] := by
  have h := comparer_load_outcomes
  exact ⟨(h.1 sNoCompare [] rfl rfl).1, (h.1 sNoCompare [] rfl rfl).2,
    (h.2 sNoName [] rfl rfl rfl).1, (h.2 sNoName [] rfl rfl rfl).2.1,
    (h.2 sNoName [] rfl rfl rfl).2.2⟩

/-- C7: the kind-filtered accessor returns the absent-value marker when
the field id is missing or its value has a different kind, and the value
itself when a field of that id and kind is present. -/
theorem message_get_kind_filtered (m : SerializedMessage) (fid : Int)
    (k : ValueKind) :
    (m.get fid = none → m.jsGetOfKind fid k = none) ∧
    (∀ v, m.get fid = some v → v.kind ≠ k → m.jsGetOfKind fid k = none) ∧
    (∀ v, m.get fid = some v → v.kind = k → m.jsGetOfKind fid k = some v) := by
  refine ⟨?_, ?_, ?_⟩
  · intro h; simp [SerializedMessage.jsGetOfKind, h]
  · intro v h hk; simp [SerializedMessage.jsGetOfKind, h, hk]
  · intro v h hk; simp [SerializedMessage.jsGetOfKind, h, hk]

/-- A converted message with a varint at field 1 and a string at field 2. -/
def msgEx : SerializedMessage := ⟨[(1, Value.varInt 3), (2, Value.str "a")]⟩

/-- Witness for C7: missing field, wrong kind, and matching kind. -/
theorem message_get_kind_filtered_witness :
    msgEx.jsGetOfKind 5 ValueKind.varInt = none ∧
    msgEx.jsGetOfKind 2 ValueKind.varInt = none ∧
    msgEx.jsGetOfKind 1 ValueKind.varInt = some (Value.varInt 3) := by
  refine ⟨?_, ?_, ?_⟩
  · exact (message_get_kind_filtered msgEx 5 ValueKind.varInt).1 rfl
  · exact (message_get_kind_filtered msgEx 2 ValueKind.varInt).2.1
      (Value.str "a") rfl (by simp [Value.kind])
  · exact (message_get_kind_filtered msgEx 1 ValueKind.varInt).2.2
      (Value.varInt 3) rfl rfl

/-- C8: called off the main thread, the public feed entry point errors
immediately, leaves the matcher untouched, dispatches no comparer, and
never consults the decoder (the outcome is the same for any decoder). -/
theorem input_off_main_thread
    (isMain : Option Bool) (m : Matcher)
    (decode d₂ : List Nat → Except String SerializedMessage)
    (id : Nat) (header data : List Nat) (h : isMain = some false) :
    (∃ msg, (input isMain m decode id header data).result = Except.error msg) ∧
    (input isMain m decode id header data).matcher = m ∧
    (input isMain m decode id header data).invoked = [] ∧
    input isMain m decode id header data = input isMain m d₂ id header data := by
  subst h
  exact ⟨⟨"input can only be called on the main thread", rfl⟩, rfl, rfl, rfl⟩

/-- Witness for C8: off-main-thread call with two different decoders. -/
theorem input_off_main_thread_witness :
    (∃ msg, (input (some false) mLogin decOk 42 [] []).result = Except.error msg) ∧
    (input (some false) mLogin decOk 42 [] []).matcher = mLogin ∧
    (input (some false) mLogin decOk 42 [] []).invoked = [] ∧
    input (some false) mLogin decOk 42 [] [] =
      input (some false) mLogin decBad 42 [] [] :=
  input_off_main_thread (some false) mLogin decOk decBad 42 [] [] rfl

/-- Invariant of reachable caches: every `name_map` entry has a matching
reverse `id_map` entry and its name recorded in `known_names`. -/
def Cache.Inv (c : Cache) : Prop :=
  ∀ n k, lookupKey n c.name_map = some k →
    lookupKey k c.id_map = some n ∧ n ∈ c.known_names

theorem Cache.inv_default : Cache.Inv Cache.default := by
  intro n k h
  simp [lookupKey, Cache.default] at h

theorem Cache.inv_update (c : Cache) (name : String) (id : Nat)
    (field : MessageField) (hInv : c.Inv) : (c.update name id field).Inv := by
  intro n k hl
  by_cases hid : (lookupKey id c.id_map).isSome
  · obtain ⟨h1, h2, h3, _⟩ := c.update_known_id name id field hid
    rw [h2] at hl
    rw [h1, h3]
    exact hInv n k hl
  · have hnone := Option.not_isSome_iff_eq_none.mp hid
    obtain ⟨h1, h2, h3, _⟩ := c.update_fresh_id name id field hnone
    rw [h2] at hl
    rw [h1, h3]
    by_cases hn : n = name
    · subst hn
      rw [lookupKey_insertKey_self] at hl
      have hk : k = id := by injection hl with h; exact h.symm
      subst hk
      exact ⟨lookupKey_insertKey_self k n c.id_map,
        List.mem_append_right _ (List.mem_singleton.mpr rfl)⟩
    · rw [lookupKey_insertKey_ne id c.name_map hn] at hl
      obtain ⟨ha, hb⟩ := hInv n k hl
      have hkid : k ≠ id := by
        intro hkeq
        subst hkeq
        rw [hnone] at ha
        exact Option.noConfusion ha
      exact ⟨by rw [lookupKey_insertKey_ne name c.id_map hkid]; exact ha,
        List.mem_append_left _ hb⟩

theorem applyOps_inv : ∀ (ops : List CacheOp) (c : Cache),
    c.Inv → (applyOps c ops).Inv := by
  intro ops
  induction ops with
  | nil => intro c h; exact h
  | cons op rest ih =>
    intro c h
    exact ih _ (c.inv_update op.name op.id op.field h)

theorem Cache.reachable_inv (c : Cache) (h : c.Reachable) : c.Inv := by
  obtain ⟨ops, rfl⟩ := h
  exact applyOps_inv ops Cache.default Cache.inv_default

/-- C9: on a reachable cache binding name `n` to id `k`, an `update` call
for `n` with a fresh id `id2 ≠ k` appends `n` a second time to
`known_names`, overwrites `name_map[n]` with `id2`, keeps both `k → n`
and `id2 → n` in `id_map`, and the identity filter afterwards routes a
comparer declared as `n` exactly by `id2`, the most recent binding. -/
theorem cache_update_rebinds_name
    (c : Cache) (n : String) (k id2 : Nat) (field : MessageField)
    (hr : c.Reachable) (hname : lookupKey n c.name_map = some k)
    (hne : k ≠ id2) (hfresh : lookupKey id2 c.id_map = none) :
    (c.update n id2 field).known_names = c.known_names ++ [n] ∧
    n ∈ c.known_names ∧
    lookupKey n (c.update n id2 field).name_map = some id2 ∧
    lookupKey k (c.update n id2 field).id_map = some n ∧
    lookupKey id2 (c.update n id2 field).id_map = some n ∧
    (∀ j : Nat, eligible (c.update n id2 field) n j = true ↔ j = id2) := by
  obtain ⟨hk_id, hmem⟩ := (c.reachable_inv hr) n k hname
  obtain ⟨h1, h2, h3, _⟩ := c.update_fresh_id n id2 field hfresh
  have hnm : lookupKey n (c.update n id2 field).name_map = some id2 := by
    rw [h2]; exact lookupKey_insertKey_self n id2 c.name_map
  refine ⟨h3, hmem, hnm, ?_, ?_, ?_⟩
  · rw [h1, lookupKey_insertKey_ne n c.id_map hne]
    exact hk_id
  · rw [h1]; exact lookupKey_insertKey_self id2 n c.id_map
  · intro j
    simp [eligible, hnm, eq_comm]

/-- Witness for C9: `"Foo"` first identified as 5, then re-identified as
7; the duplicate name, both map directions, and the routing flip are all
observable. -/
theorem cache_update_rebinds_name_witness :
    ((Cache.default.update "Foo" 5 ⟨"x", "int", 1⟩).update "Foo" 7 ⟨"y", "int", 2⟩).known_names =
      ["Foo", "Foo"] ∧
    lookupKey "Foo"
        ((Cache.default.update "Foo" 5 ⟨"x", "int", 1⟩).update "Foo" 7 ⟨"y", "int", 2⟩).name_map =
      some 7 ∧
    lookupKey 5
        ((Cache.default.update "Foo" 5 ⟨"x", "int", 1⟩).update "Foo" 7 ⟨"y", "int", 2⟩).id_map =
      some "Foo" ∧
    lookupKey 7
        ((Cache.default.update "Foo" 5 ⟨"x", "int", 1⟩).update "Foo" 7 ⟨"y", "int", 2⟩).id_map =
      some "Foo" ∧
    eligible ((Cache.default.update "Foo" 5 ⟨"x", "int", 1⟩).update "Foo" 7 ⟨"y", "int", 2⟩)
      "Foo" 7 = true ∧
    eligible ((Cache.default.update "Foo" 5 ⟨"x", "int", 1⟩).update "Foo" 7 ⟨"y", "int", 2⟩)
      "Foo" 5 = false := by
  have h := cache_update_rebinds_name (Cache.default.update "Foo" 5 ⟨"x", "int", 1⟩)
    "Foo" 5 7 ⟨"y", "int", 2⟩
    ⟨[⟨"Foo", 5, ⟨"x", "int", 1⟩⟩], rfl⟩ (by decide) (by decide) (by decide)
  refine ⟨h.1.trans (by decide), h.2.2.1, h.2.2.2.1, h.2.2.2.2.1,
    (h.2.2.2.2.2 7).mpr rfl, ?_⟩
  have h5 := h.2.2.2.2.2 5
  exact Bool.eq_false_iff.mpr (fun he => absurd (h5.mp he) (by decide))

/-- C10: a further call to the public `initialize` on an existing matcher
(the process-wide singleton) does not discard its state: with the script
directory present it succeeds, the previously loaded comparers stay at the
front of the roster with the newly constructed ones appended after them,
and the cache with all its accumulated contents is kept rather than
replaced by a fresh one. -/
theorem lib_setup_preserves_state (pathOk : Bool) (m : Matcher)
    (config : Config) (scripts : List Script) (hpath : pathOk = true) :
    ∃ out, libSetup pathOk m config scripts = Except.ok out ∧
      out.1.comparers = m.comparers ++ (loadScripts scripts).1 ∧
      out.1.cache = m.cache := by
  subst hpath
  exact ⟨_, rfl, rfl, rfl⟩

/-- A script that loads successfully as a comparer named `"Ping"`. -/
def sPing : Script :=
  ⟨none, true, some "Ping", none, fun _ _ _ cache => (Except.ok (), cache)⟩

/-- Witness for C10: a matcher with a non-empty roster and a non-empty
cache re-initialized over one loadable script. -/
theorem lib_setup_preserves_state_witness :
    ∃ out,
      libSetup true
        ⟨Config.default, Cache.default.update "A" 1 ⟨"x", "int", 1⟩, [cmpLogin]⟩
        Config.default [sPing] = Except.ok out ∧
      out.1.comparers = [cmpLogin] ++ (loadScripts [sPing]).1 ∧
      out.1.cache = Cache.default.update "A" 1 ⟨"x", "int", 1⟩ :=
  lib_setup_preserves_state true
    ⟨Config.default, Cache.default.update "A" 1 ⟨"x", "int", 1⟩, [cmpLogin]⟩
    Config.default [sPing] rfl
